import Mathlib

set_option linter.unusedVariables false

/-!
Shallow embedding of the schematic reader (reader.go) and proofs about it.

The decompressed byte stream is a `List Nat` (each element one byte of the
stream; well-formed streams have every element below 256).  Go strings are
kept as the raw byte lists the reader produced them from, since the parser
only compares them for equality against fixed literals.  Every reader
routine of the Go code returns a (value, error) pair with the reader cursor
advanced; here each routine maps the remaining stream to an `RR` record
holding the returned value, the remaining stream, and the error slot, so
that the value returned on the error path (the Go zero value, or a
partially filled buffer) is modelled exactly.
-/

/-- Tag kind discriminator constants from the top of reader.go. -/
def TAG_END : Nat := 0

def TAG_BYTE : Nat := 1

def TAG_SHORT : Nat := 2

def TAG_INT : Nat := 3

def TAG_LONG : Nat := 4

def TAG_FLOAT : Nat := 5

def TAG_DOUBLE : Nat := 6

def TAG_BYTE_ARRAY : Nat := 7

def TAG_STRING : Nat := 8

def TAG_LIST : Nat := 9

def TAG_COMPOUND : Nat := 10

/-- The error values the reader can produce.  The Go code erases all of
these to `os.Error` strings; the constructors carry the same diagnostic
payload the format strings of reader.go embed. -/
inductive DecodeError where
  | truncated
  | notCompound (typ : Nat)
  | badRootName (name : List Nat)
  | unknownField (typ : Nat) (name : List Nat)
  | unknownEntityField (name : List Nat)
  | badMaterials (m : List Nat)
  deriving DecidableEq, Repr

/-- Result of one Go reader routine: the returned value (also on the error
path, where Go hands back the zero value or a partially filled buffer), the
remaining stream, and the error slot. -/
structure RR (α : Type) where
  val : α
  rest : List Nat
  err : Option DecodeError
  deriving DecidableEq, Repr

/-- nbtReader.ReadTagTyp: reads one byte (bufio.Reader.ReadByte); on an
empty stream Go returns (0, err). -/
def ReadTagTyp (s : List Nat) : RR Nat :=
  match s with
  | [] => ⟨0, [], some DecodeError.truncated⟩
  | b :: rest => ⟨b, rest, none⟩

/-- nbtReader.ReadShort: reads 2 bytes big-endian, producing
int(buf[1]) + int(buf[0])<<8; on a short read Go returns (0, err). -/
def ReadShort (s : List Nat) : RR Int :=
  if 2 ≤ s.length then
    ⟨(s.getD 1 0 : Int) + (s.getD 0 0 : Int) * 256, s.drop 2, none⟩
  else ⟨0, s, some DecodeError.truncated⟩

/-- Two's-complement reinterpretation at the 32-bit width of int in the
os.Error-era Go toolchains this source builds with. -/
def wrap32 (n : Int) : Int :=
  if n % 4294967296 < 2147483648 then n % 4294967296 else n % 4294967296 - 4294967296

/-- nbtReader.ReadInt: reads 4 bytes big-endian accumulated by
val = val<<8 + buf[i] on a 32-bit int, which wraps: the four bytes decode
as signed two's complement (wrapping once at the end equals the per-step
machine wrap, the bit pattern being the byte sum modulo 2^32), so
FF FF FF FF decodes to -1.  On a short read Go returns (0, err). -/
def ReadInt (s : List Nat) : RR Int :=
  if 4 ≤ s.length then
    ⟨wrap32 ((((s.getD 0 0 : Int) * 256 + (s.getD 1 0 : Int)) * 256 + (s.getD 2 0 : Int)) * 256
        + (s.getD 3 0 : Int)),
      s.drop 4, none⟩
  else ⟨0, s, some DecodeError.truncated⟩

/-- nbtReader.ReadString: a ReadShort length then that many raw bytes; on
either failure Go returns the zero string. -/
def ReadString (s : List Nat) : RR (List Nat) :=
  match ReadShort s with
  | ⟨_, rest, some e⟩ => ⟨[], rest, some e⟩
  | ⟨l, rest, none⟩ =>
    if l.toNat ≤ rest.length then ⟨rest.take l.toNat, rest.drop l.toNat, none⟩
    else ⟨[], rest, some DecodeError.truncated⟩

/-- nbtReader.ReadTagName: one kind byte; the End sentinel carries no name,
any other kind is followed by a ReadString name.  On a name failure Go
returns the kind it already read and the zero string. -/
def ReadTagName (s : List Nat) : RR (Nat × List Nat) :=
  match ReadTagTyp s with
  | ⟨t, rest, some e⟩ => ⟨(t, []), rest, some e⟩
  | ⟨t, rest, none⟩ =>
    if t = TAG_END then ⟨(t, []), rest, none⟩
    else
      match ReadString rest with
      | ⟨nm, rest2, e⟩ => ⟨(t, nm), rest2, e⟩

/-- nbtReader.ReadByteArray: a ReadInt length L, then io.ReadFull into a
fresh zeroed buffer of length L.  make([]byte, L) panics at runtime when L
is negative, the none outcome here; a short read hands back the buffer
with the bytes that were available at its front and zeroes after them. -/
def ReadByteArray (s : List Nat) : Option (RR (List Nat)) :=
  match ReadInt s with
  | ⟨_, rest, some e⟩ => some ⟨[], rest, some e⟩
  | ⟨l, rest, none⟩ =>
    if l < 0 then none
    else if l.toNat ≤ rest.length then some ⟨rest.take l.toNat, rest.drop l.toNat, none⟩
    else some ⟨rest ++ List.replicate (l.toNat - rest.length) 0, [], some DecodeError.truncated⟩

/-- Entity record; the current schema recognizes no entity fields, so the
identifier keeps its zero value. -/
structure Entity where
  Id : List Nat := []
  deriving DecidableEq, Repr

/-- The decoded volumetric map, field for field the Go Schematic struct;
the defaults are the Go zero values new(Schematic) starts from. -/
structure Schematic where
  Width : Int := 0
  Length : Int := 0
  Height : Int := 0
  WEOffsetX : Int := 0
  WEOffsetY : Int := 0
  WEOffsetZ : Int := 0
  Materials : List Nat := []
  Blocks : List Nat := []
  Data : List Nat := []
  Entities : List Entity := []
  deriving DecidableEq, Repr

/-- The zero Schematic produced by new(Schematic). -/
def Schematic.new : Schematic := {}

/-- Byte content of the Go string literal "Schematic". -/
def strSchematic : List Nat := [83, 99, 104, 101, 109, 97, 116, 105, 99]

/-- Byte content of the Go string literal "Alpha". -/
def strAlpha : List Nat := [65, 108, 112, 104, 97]

/-- Byte content of the field name "Width". -/
def nWidth : List Nat := [87, 105, 100, 116, 104]

/-- Byte content of the field name "Length". -/
def nLength : List Nat := [76, 101, 110, 103, 116, 104]

/-- Byte content of the field name "Height". -/
def nHeight : List Nat := [72, 101, 105, 103, 104, 116]

/-- Byte content of the field name "Materials". -/
def nMaterials : List Nat := [77, 97, 116, 101, 114, 105, 97, 108, 115]

/-- Byte content of the field name "Blocks". -/
def nBlocks : List Nat := [66, 108, 111, 99, 107, 115]

/-- Byte content of the field name "Data". -/
def nData : List Nat := [68, 97, 116, 97]

/-- Byte content of the field name "WEOffsetX". -/
def nWEOffsetX : List Nat := [87, 69, 79, 102, 102, 115, 101, 116, 88]

/-- Byte content of the field name "WEOffsetY". -/
def nWEOffsetY : List Nat := [87, 69, 79, 102, 102, 115, 101, 116, 89]

/-- Byte content of the field name "WEOffsetZ". -/
def nWEOffsetZ : List Nat := [87, 69, 79, 102, 102, 115, 101, 116, 90]

/-- Byte content of the field name "Entities". -/
def nEntities : List Nat := [69, 110, 116, 105, 116, 105, 101, 115]

/-- The member names the switch in Parse recognizes, in source order. -/
def rootFieldNames : List (List Nat) :=
  [nWidth, nLength, nHeight, nMaterials, nBlocks, nData,
    nWEOffsetX, nWEOffsetY, nWEOffsetZ, nEntities]

/-- schematicReader.ReadEntity: loops over tag headers until End; the
switch over the field name has only a default arm, which fails, so a
single header decides the call.  The returned entity is always the zero
value. -/
def ReadEntity (s : List Nat) : RR Entity :=
  match ReadTagName s with
  | ⟨_, rest, some e⟩ => ⟨{}, rest, some e⟩
  | ⟨(typ, name), rest, none⟩ =>
    if typ = TAG_END then ⟨{}, rest, none⟩
    else ⟨{}, rest, some (DecodeError.unknownEntityField name)⟩

/-- schematicReader.ReadEntities loop body, with a fuel argument making the
recursion structural.  Every iteration consumes at least the kind byte, so
the wrapper's initial fuel of one more than the stream length is never
exhausted. -/
def ReadEntitiesF : Nat → List Nat → RR (List Entity)
  | 0, s => ⟨[], s, some DecodeError.truncated⟩
  | fuel + 1, s =>
    match ReadTagTyp s with
    | ⟨_, rest, some e⟩ => ⟨[], rest, some e⟩
    | ⟨typ, rest, none⟩ =>
      if typ = TAG_END then ⟨[], rest, none⟩
      else
        match ReadEntity rest with
        | ⟨_, rest2, some e⟩ => ⟨[], rest2, some e⟩
        | ⟨ent, rest2, none⟩ =>
          match ReadEntitiesF fuel rest2 with
          | ⟨ents, rest3, e⟩ => ⟨ent :: ents, rest3, e⟩

/-- schematicReader.ReadEntities: reads kind bytes until End; a non-End
kind (tested against TAG_COMPOUND only by an empty statement) is followed
by one compound entity payload, appended in order.  On a failure the
entities accumulated so far come back with the error, as in Go. -/
def ReadEntities (s : List Nat) : RR (List Entity) :=
  ReadEntitiesF (s.length + 1) s

/-- Outcome of the member loop of Parse: the loop either reaches the End
sentinel with the struct assembled so far, or fails, or hits the runtime
panic of a negative array length inside ReadByteArray.  On a mid-loop read
failure Go returns the allocated struct alongside the error, while the
unknown-name arm returns nil, hence the Option payload of fail. -/
inductive FieldsOut where
  | done (sc : Schematic)
  | fail (sc : Option Schematic) (e : DecodeError)
  | panicked
  deriving DecidableEq, Repr

/-- The member loop of schematicReader.Parse, fueled as ReadEntitiesF is;
each arm assigns the read value into its field first and then checks the
error, exactly as the Go multiple assignment does. -/
def parseFieldsF : Nat → Schematic → List Nat → FieldsOut
  | 0, cur, _ => FieldsOut.fail (some cur) DecodeError.truncated
  | fuel + 1, cur, s =>
    match ReadTagName s with
    | ⟨_, _, some e⟩ => FieldsOut.fail (some cur) e
    | ⟨(typ, name), rest, none⟩ =>
      if typ = TAG_END then FieldsOut.done cur
      else if name = nWidth then
        match ReadShort rest with
        | ⟨v, _, some e⟩ => FieldsOut.fail (some { cur with Width := v }) e
        | ⟨v, rest2, none⟩ => parseFieldsF fuel { cur with Width := v } rest2
      else if name = nLength then
        match ReadShort rest with
        | ⟨v, _, some e⟩ => FieldsOut.fail (some { cur with Length := v }) e
        | ⟨v, rest2, none⟩ => parseFieldsF fuel { cur with Length := v } rest2
      else if name = nHeight then
        match ReadShort rest with
        | ⟨v, _, some e⟩ => FieldsOut.fail (some { cur with Height := v }) e
        | ⟨v, rest2, none⟩ => parseFieldsF fuel { cur with Height := v } rest2
      else if name = nMaterials then
        match ReadString rest with
        | ⟨v, _, some e⟩ => FieldsOut.fail (some { cur with Materials := v }) e
        | ⟨v, rest2, none⟩ => parseFieldsF fuel { cur with Materials := v } rest2
      else if name = nBlocks then
        match ReadByteArray rest with
        | none => FieldsOut.panicked
        | some ⟨v, _, some e⟩ => FieldsOut.fail (some { cur with Blocks := v }) e
        | some ⟨v, rest2, none⟩ => parseFieldsF fuel { cur with Blocks := v } rest2
      else if name = nData then
        match ReadByteArray rest with
        | none => FieldsOut.panicked
        | some ⟨v, _, some e⟩ => FieldsOut.fail (some { cur with Data := v }) e
        | some ⟨v, rest2, none⟩ => parseFieldsF fuel { cur with Data := v } rest2
      else if name = nWEOffsetX then
        match ReadInt rest with
        | ⟨v, _, some e⟩ => FieldsOut.fail (some { cur with WEOffsetX := v }) e
        | ⟨v, rest2, none⟩ => parseFieldsF fuel { cur with WEOffsetX := v } rest2
      else if name = nWEOffsetY then
        match ReadInt rest with
        | ⟨v, _, some e⟩ => FieldsOut.fail (some { cur with WEOffsetY := v }) e
        | ⟨v, rest2, none⟩ => parseFieldsF fuel { cur with WEOffsetY := v } rest2
      else if name = nWEOffsetZ then
        match ReadInt rest with
        | ⟨v, _, some e⟩ => FieldsOut.fail (some { cur with WEOffsetZ := v }) e
        | ⟨v, rest2, none⟩ => parseFieldsF fuel { cur with WEOffsetZ := v } rest2
      else if name = nEntities then
        match ReadEntities rest with
        | ⟨v, _, some e⟩ => FieldsOut.fail (some { cur with Entities := v }) e
        | ⟨v, rest2, none⟩ => parseFieldsF fuel { cur with Entities := v } rest2
      else FieldsOut.fail none (DecodeError.unknownField typ name)

/-- The member loop of Parse over a given remaining stream. -/
def parseFields (cur : Schematic) (s : List Nat) : FieldsOut :=
  parseFieldsF (s.length + 1) cur s

/-- How one call to Parse ends: ret carries the Go named returns
(s *Schematic, err os.Error) — nil or the struct pointer, and the error
slot — while panicked is the runtime panic a negative array length raises
inside the member loop, which aborts the call without returning. -/
inductive ParseOut where
  | ret (sc : Option Schematic) (err : Option DecodeError)
  | panicked
  deriving DecidableEq, Repr

/-- The struct pointer a finished Parse call hands back (none when it
panicked and returns nothing). -/
def ParseOut.vol : ParseOut → Option Schematic
  | ParseOut.ret sc _ => sc
  | ParseOut.panicked => none

/-- The error slot of a finished Parse call (none when it panicked and
returns nothing). -/
def ParseOut.errOut : ParseOut → Option DecodeError
  | ParseOut.ret _ e => e
  | ParseOut.panicked => none

/-- schematicReader.Parse: one root header that must be a Compound named
"Schematic", then the member loop, then the Materials check. -/
def Parse (s : List Nat) : ParseOut :=
  match ReadTagName s with
  | ⟨_, _, some e⟩ => ParseOut.ret none (some e)
  | ⟨(typ, name), rest, none⟩ =>
    if typ ≠ TAG_COMPOUND then ParseOut.ret none (some (DecodeError.notCompound typ))
    else if name ≠ strSchematic then ParseOut.ret none (some (DecodeError.badRootName name))
    else
      match parseFields Schematic.new rest with
      | FieldsOut.panicked => ParseOut.panicked
      | FieldsOut.fail os e => ParseOut.ret os (some e)
      | FieldsOut.done sc =>
        if sc.Materials ≠ strAlpha then ParseOut.ret none (some (DecodeError.badMaterials sc.Materials))
        else ParseOut.ret (some sc) none

/-- ReadSchematic: the entry point wraps the input in the gzip transport
(an external collaborator here, so the argument is already the
decompressed stream) and forwards what Parse returns, unchanged. -/
def ReadSchematic (s : List Nat) : ParseOut :=
  Parse s

/-- Schematic.XLen returns s.Width. -/
def Schematic.XLen (s : Schematic) : Int := s.Width

/-- Schematic.YLen returns s.Height. -/
def Schematic.YLen (s : Schematic) : Int := s.Height

/-- Schematic.ZLen returns s.Length. -/
def Schematic.ZLen (s : Schematic) : Int := s.Length

/-- Schematic.Get: the bounds guard returns false, otherwise the presence
byte at index y*XLen*ZLen + z*XLen + x is tested against zero.  The Go
expression s.Blocks[index] panics when the index lies outside the slice;
that panic is the none outcome. -/
def Schematic.Get (s : Schematic) (x y z : Int) : Option Bool :=
  if x < 0 ∨ y < 0 ∨ z < 0 ∨ s.XLen ≤ x ∨ s.YLen ≤ y ∨ s.ZLen ≤ z then some false
  else
    let index := y * s.XLen * s.ZLen + z * s.XLen + x
    if 0 ≤ index ∧ index < (s.Blocks.length : Int) then
      some (s.Blocks.getD index.toNat 0 != 0)
    else none

/-- Modelled from the spec: the repository has no 16-bit material query;
this follows the spec words for material_at — 0 when any coordinate is out
of its [0, dimension) range, otherwise the presence byte at the flattening
index widened with the extension buffer when that buffer is present (low
byte from the presence buffer, high byte from the extension buffer). -/
def material_at (s : Schematic) (x y z : Int) : Int :=
  if x < 0 ∨ y < 0 ∨ z < 0 ∨ s.XLen ≤ x ∨ s.YLen ≤ y ∨ s.ZLen ≤ z then 0
  else
    let index := (y * s.XLen * s.ZLen + z * s.XLen + x).toNat
    if s.Data ≠ [] then
      (s.Blocks.getD index 0 : Int) + 256 * (s.Data.getD index 0 : Int)
    else (s.Blocks.getD index 0 : Int)

/-- A 1x1x1 map whose presence byte is zero while the extension buffer is
present and non-zero at the same index. -/
def scLowZero : Schematic :=
  { Schematic.new with Width := 1, Height := 1, Length := 1, Blocks := [0], Data := [1] }

/-- A 2x2x2 map with every cell present, for out-of-bounds queries. -/
def scFull2 : Schematic :=
  { Schematic.new with Width := 2, Height := 2, Length := 2, Blocks := [1, 1, 1, 1, 1, 1, 1, 1] }

/-- A 2x2x2 map whose only non-zero presence byte sits at flattening
index 5, the cell x equal 1, z equal 0, y equal 1. -/
def scIdx5 : Schematic :=
  { Schematic.new with Width := 2, Height := 2, Length := 2, Blocks := [0, 0, 0, 0, 0, 1, 0, 0] }

/-- A 2x1x1 map whose presence buffer exactly covers its cells. -/
def scRow2 : Schematic :=
  { Schematic.new with Width := 2, Height := 1, Length := 1, Blocks := [7, 0] }

/-- A stream holding only the root header, Compound named "Schematic",
truncated before any member. -/
def bytesRootOnly : List Nat := [10, 0, 9] ++ strSchematic

/-- A stream whose root compound holds one member, Materials with the
value "Beta", then the End sentinel. -/
def bytesBetaDoc : List Nat :=
  [10, 0, 9] ++ strSchematic ++ [8, 0, 9] ++ nMaterials ++ [0, 4, 66, 101, 116, 97] ++ [0]

/-- The member part of bytesBetaDoc, after the root header. -/
def restBetaDoc : List Nat :=
  [8, 0, 9] ++ nMaterials ++ [0, 4, 66, 101, 116, 97] ++ [0]

/-- The struct the member loop of bytesBetaDoc assembles. -/
def scBeta : Schematic := { Schematic.new with Materials := [66, 101, 116, 97] }

/-- A member stream holding one tag named "Entities" whose list payload is
empty, then the End sentinel of the compound. -/
def bytesEntitiesMember : List Nat := [9, 0, 8] ++ nEntities ++ [0, 0]

/-- A document whose Blocks member carries the length prefix FF FF FF FF,
which ReadInt decodes as -1. -/
def bytesNegLen : List Nat :=
  [10, 0, 9] ++ strSchematic ++ [7, 0, 6] ++ nBlocks ++ [255, 255, 255, 255]

/-- The kind-byte read consumes exactly one byte when it succeeds. -/
theorem ReadTagTyp_rest_lt (s : List Nat) (h : (ReadTagTyp s).err = none) :
    (ReadTagTyp s).rest.length < s.length := by
  cases s with
  | nil => simp [ReadTagTyp] at h
  | cons b t => simp [ReadTagTyp]

/-- The kind-byte read never grows the stream. -/
theorem ReadTagTyp_rest_le (s : List Nat) : (ReadTagTyp s).rest.length ≤ s.length := by
  cases s with
  | nil => simp [ReadTagTyp]
  | cons b t => simp [ReadTagTyp]

/-- ReadShort never grows the stream. -/
theorem ReadShort_rest_le (s : List Nat) : (ReadShort s).rest.length ≤ s.length := by
  unfold ReadShort
  split <;> simp

/-- ReadString never grows the stream. -/
theorem ReadString_rest_le (s : List Nat) : (ReadString s).rest.length ≤ s.length := by
  unfold ReadString
  split
  · next v r e heq =>
    have h0 := ReadShort_rest_le s
    rw [heq] at h0
    simpa using h0
  · next l r heq =>
    have h0 := ReadShort_rest_le s
    rw [heq] at h0
    simp only at h0
    split
    · simp only [List.length_drop]
      omega
    · simpa using h0

/-- ReadTagName never grows the stream. -/
theorem ReadTagName_rest_le (s : List Nat) : (ReadTagName s).rest.length ≤ s.length := by
  unfold ReadTagName
  split
  · next t r e heq =>
    have h0 := ReadTagTyp_rest_le s
    rw [heq] at h0
    simpa using h0
  · next t r heq =>
    have h0 := ReadTagTyp_rest_le s
    rw [heq] at h0
    simp only at h0
    split
    · simpa using h0
    · split
      next nm r2 e2 heq2 =>
        have h1 := ReadString_rest_le r
        rw [heq2] at h1
        simp only at h1
        simp only
        omega

/-- ReadEntity never grows the stream. -/
theorem ReadEntity_rest_le (s : List Nat) : (ReadEntity s).rest.length ≤ s.length := by
  unfold ReadEntity
  split
  · next r e heq =>
    have h0 := ReadTagName_rest_le s
    rw [heq] at h0
    simpa using h0
  · next typ name r heq =>
    have h0 := ReadTagName_rest_le s
    rw [heq] at h0
    simp only at h0
    split <;> simpa using h0

/-- Any fuel above the stream length computes the same ReadEntities result:
the loop consumes at least one byte per iteration. -/
theorem ReadEntitiesF_congr (f : Nat) :
    ∀ (g : Nat) (s : List Nat), s.length < f → s.length < g →
      ReadEntitiesF f s = ReadEntitiesF g s := by
  induction f with
  | zero => intro g s hf hg; omega
  | succ f ih =>
    intro g s hf hg
    cases g with
    | zero => omega
    | succ g1 =>
      rcases hT : ReadTagTyp s with ⟨t, r, e⟩
      cases e with
      | some e => simp [ReadEntitiesF, hT]
      | none =>
        by_cases ht : t = TAG_END
        · simp [ReadEntitiesF, hT, ht]
        · rcases hE : ReadEntity r with ⟨ent, r2, e2⟩
          cases e2 with
          | some e2 => simp [ReadEntitiesF, hT, ht, hE]
          | none =>
            have hr : r.length < s.length := by
              have h1 := ReadTagTyp_rest_lt s (by rw [hT])
              rw [hT] at h1
              simpa using h1
            have hr2 : r2.length ≤ r.length := by
              have h1 := ReadEntity_rest_le r
              rw [hE] at h1
              simpa using h1
            have hrec : ReadEntitiesF f r2 = ReadEntitiesF g1 r2 :=
              ih g1 r2 (by omega) (by omega)
            simp [ReadEntitiesF, hT, ht, hE, hrec]

/-- The flattening index of an in-bounds cell is below the cell count. -/
theorem index_lt_of_inbounds (W H L x y z : Int) (hx0 : 0 ≤ x) (hx : x < W)
    (hy0 : 0 ≤ y) (hy : y < H) (hz0 : 0 ≤ z) (hz : z < L) :
    y * W * L + z * W + x < W * H * L := by
  have hW : 0 < W := lt_of_le_of_lt hx0 hx
  have hL : 0 < L := lt_of_le_of_lt hz0 hz
  have h1 : (z + 1) * W ≤ L * W :=
    mul_le_mul_of_nonneg_right (by omega) hW.le
  have h2 : (y + 1) * (W * L) ≤ H * (W * L) :=
    mul_le_mul_of_nonneg_right (by omega) (mul_nonneg hW.le hL.le)
  nlinarith [h1, h2]

/-- In-bounds behaviour of Get when the presence buffer covers at least
width times height times length cells: the bounds guard falls through and
the index stays inside the slice, so the presence byte is tested. -/
theorem Get_eq_of_inbounds (sc : Schematic) (x y z : Int)
    (hx0 : 0 ≤ x) (hx : x < sc.XLen) (hy0 : 0 ≤ y) (hy : y < sc.YLen)
    (hz0 : 0 ≤ z) (hz : z < sc.ZLen)
    (hlen : sc.Width * sc.Height * sc.Length ≤ (sc.Blocks.length : Int)) :
    sc.Get x y z =
      some (sc.Blocks.getD (y * sc.Width * sc.Length + z * sc.Width + x).toNat 0 != 0) := by
  simp only [Schematic.XLen, Schematic.YLen, Schematic.ZLen] at hx hy hz
  have hidx : y * sc.Width * sc.Length + z * sc.Width + x < sc.Width * sc.Height * sc.Length :=
    index_lt_of_inbounds sc.Width sc.Height sc.Length x y z hx0 hx hy0 hy hz0 hz
  have hnn : 0 ≤ y * sc.Width * sc.Length + z * sc.Width + x := by
    have hW : 0 ≤ sc.Width := le_trans hx0 hx.le
    have hL : 0 ≤ sc.Length := le_trans hz0 hz.le
    have := mul_nonneg (mul_nonneg hy0 hW) hL
    have := mul_nonneg hz0 hW
    omega
  unfold Schematic.Get
  rw [if_neg, if_pos]
  · simp only [Schematic.XLen, Schematic.ZLen]
  · simp only [Schematic.XLen, Schematic.ZLen]
    exact ⟨hnn, lt_of_lt_of_le hidx hlen⟩
  · simp only [Schematic.XLen, Schematic.YLen, Schematic.ZLen]
    push_neg
    exact ⟨hx0, hy0, hz0, hx, hy, hz⟩

/-- Claim C3 counterexample: ReadShort decodes the bytes 0xFF 0xFF, whose
high bit is set, to 65535, not to a negative number, so the 2-byte decode
is not signed two's complement. -/
theorem c3_short_not_signed : ReadShort [255, 255] = ⟨65535, [], none⟩ ∧
    ¬ (ReadShort [255, 255]).val < 0 := by decide

/-- Claim C3 (amended): the 2-byte decode used for Width, Length, Height
and string length prefixes interprets its two big-endian bytes as the
unsigned value low plus 256 times high; the result is never negative, and
stays below 65536 for genuine byte input. -/
theorem c3_short_unsigned :
    (∀ (b0 b1 : Nat) (rest : List Nat),
      ReadShort (b0 :: b1 :: rest) = ⟨(b1 : Int) + (b0 : Int) * 256, rest, none⟩) ∧
    (∀ s : List Nat, 0 ≤ (ReadShort s).val) ∧
    (∀ (b0 b1 : Nat) (rest : List Nat), b0 < 256 → b1 < 256 →
      (ReadShort (b0 :: b1 :: rest)).val < 65536) := by
  refine ⟨?_, ?_, ?_⟩
  · intro b0 b1 rest
    simp [ReadShort]
  · intro s
    unfold ReadShort
    split
    · simp only
      positivity
    · simp
  · intro b0 b1 rest h0 h1
    simp only [ReadShort, List.length_cons]
    rw [if_pos (by omega)]
    simp only [List.getD_cons_succ, List.getD_cons_zero]
    omega

/-- Witness for the amended claim C3 at the concrete bytes 0x80 0x00. -/
theorem c3_short_unsigned_witness :
    0 ≤ (ReadShort [128, 0]).val ∧ (ReadShort [128, 0]).val < 65536 :=
  ⟨c3_short_unsigned.2.1 [128, 0], c3_short_unsigned.2.2 128 0 [] (by decide) (by decide)⟩

/-- Claim C4: any coordinate outside its [0, dimension) range makes Get
return false and the material query return 0, whatever the buffers hold.
Get is the source function; material_at is modelled from the spec. -/
theorem c4_out_of_bounds (sc : Schematic) (x y z : Int)
    (h : x < 0 ∨ y < 0 ∨ z < 0 ∨ sc.XLen ≤ x ∨ sc.YLen ≤ y ∨ sc.ZLen ≤ z) :
    sc.Get x y z = some false ∧ material_at sc x y z = 0 := by
  constructor
  · unfold Schematic.Get
    rw [if_pos h]
  · unfold material_at
    rw [if_pos h]

/-- Witness for claim C4: a negative x and an out-of-range y on a fully
populated 2x2x2 map. -/
theorem c4_out_of_bounds_witness :
    (scFull2.Get (-1) 0 0 = some false ∧ material_at scFull2 (-1) 0 0 = 0) ∧
    (scFull2.Get 0 2 0 = some false ∧ material_at scFull2 0 2 0 = 0) :=
  ⟨c4_out_of_bounds scFull2 (-1) 0 0 (Or.inl (by decide)),
   c4_out_of_bounds scFull2 0 2 0 (by right; right; right; right; left; decide)⟩

/-- Claim C9: when the dimensions are non-negative and the presence buffer
holds at least Width times Height times Length bytes, Get never indexes
outside the buffer, so the query is total (no panic outcome). -/
theorem c9_get_total (sc : Schematic) (x y z : Int)
    (hW : 0 ≤ sc.Width) (hH : 0 ≤ sc.Height) (hL : 0 ≤ sc.Length)
    (hlen : sc.Width * sc.Height * sc.Length ≤ (sc.Blocks.length : Int)) :
    (sc.Get x y z).isSome = true := by
  by_cases h : x < 0 ∨ y < 0 ∨ z < 0 ∨ sc.XLen ≤ x ∨ sc.YLen ≤ y ∨ sc.ZLen ≤ z
  · unfold Schematic.Get
    rw [if_pos h]
    rfl
  · push_neg at h
    obtain ⟨hx0, hy0, hz0, hx, hy, hz⟩ := h
    rw [Get_eq_of_inbounds sc x y z hx0 hx hy0 hy hz0 hz hlen]
    rfl

/-- Witness for claim C9 on a 2x1x1 map, at an in-bounds and at an
out-of-bounds coordinate. -/
theorem c9_get_total_witness :
    (scRow2.Get 1 0 0).isSome = true ∧ (scRow2.Get 5 0 0).isSome = true :=
  ⟨c9_get_total scRow2 1 0 0 (by decide) (by decide) (by decide) (by decide),
   c9_get_total scRow2 5 0 0 (by decide) (by decide) (by decide) (by decide)⟩

/-- Claim C5: for an in-bounds coordinate of a map whose presence buffer
has the invariant length width times length times height, Get answers true
exactly when the presence byte at flattening index y*(width*length) +
z*width + x is non-zero.  Determinism is definitional here: Get is a pure
function of the map and the coordinates. -/
theorem c5_filled_iff (sc : Schematic) (x y z : Int)
    (hx0 : 0 ≤ x) (hx : x < sc.XLen) (hy0 : 0 ≤ y) (hy : y < sc.YLen)
    (hz0 : 0 ≤ z) (hz : z < sc.ZLen)
    (hlen : (sc.Blocks.length : Int) = sc.Width * sc.Length * sc.Height) :
    (sc.Get x y z = some true ↔
      sc.Blocks.getD (y * (sc.Width * sc.Length) + z * sc.Width + x).toNat 0 ≠ 0) := by
  have hle : sc.Width * sc.Height * sc.Length ≤ (sc.Blocks.length : Int) := by
    rw [hlen]
    exact le_of_eq (by ring)
  rw [Get_eq_of_inbounds sc x y z hx0 hx hy0 hy hz0 hz hle]
  have hidx : y * sc.Width * sc.Length + z * sc.Width + x
      = y * (sc.Width * sc.Length) + z * sc.Width + x := by ring
  rw [hidx]
  simp [bne_iff_ne]

/-- Witness for claim C5: on the map whose only non-zero presence byte is
at flattening index 5, cell (1,1,0) answers true. -/
theorem c5_filled_iff_witness :
    ((1 : Int) * (scIdx5.Width * scIdx5.Length) + 0 * scIdx5.Width + 1).toNat = 5 ∧
    (scIdx5.Get 1 1 0 = some true ↔
      scIdx5.Blocks.getD
        ((1 : Int) * (scIdx5.Width * scIdx5.Length) + 0 * scIdx5.Width + 1).toNat 0 ≠ 0) :=
  ⟨by decide,
   c5_filled_iff scIdx5 1 1 0 (by decide) (by decide) (by decide) (by decide) (by decide)
     (by decide) (by decide)⟩

/-- Claim C2 counterexample: on a 1x1x1 map with presence byte 0 and
extension byte 1, the spec-modelled 16-bit material value is 256, yet Get
answers false: the filled query does not account for the extension buffer
even though it is present. -/
theorem c2_filled_ignores_extension :
    material_at scLowZero 0 0 0 = 256 ∧ scLowZero.Get 0 0 0 = some false ∧
    ¬ scLowZero.Get 0 0 0 = some (material_at scLowZero 0 0 0 != 0) := by decide

/-- Claim C2 (amended): the filled query consults only the presence
buffer; replacing the extension buffer never changes its answer, and at an
in-bounds coordinate of a covering presence buffer it returns whether the
presence byte at the flattening index is non-zero.  The repository has no
16-bit material query. -/
theorem c2_get_uses_blocks_only :
    (∀ (sc : Schematic) (d : List Nat) (x y z : Int),
      Schematic.Get { sc with Data := d } x y z = sc.Get x y z) ∧
    (∀ (sc : Schematic) (x y z : Int), 0 ≤ x → x < sc.XLen → 0 ≤ y → y < sc.YLen →
      0 ≤ z → z < sc.ZLen → sc.Width * sc.Height * sc.Length ≤ (sc.Blocks.length : Int) →
      sc.Get x y z =
        some (sc.Blocks.getD (y * sc.Width * sc.Length + z * sc.Width + x).toNat 0 != 0)) := by
  constructor
  · intro sc d x y z
    rfl
  · intro sc x y z hx0 hx hy0 hy hz0 hz hlen
    exact Get_eq_of_inbounds sc x y z hx0 hx hy0 hy hz0 hz hlen

/-- Witness for the amended claim C2 at cell (1,1,0) of the index-5 map. -/
theorem c2_get_uses_blocks_only_witness :
    scIdx5.Get 1 1 0 =
      some (scIdx5.Blocks.getD
        ((1 : Int) * scIdx5.Width * scIdx5.Length + 0 * scIdx5.Width + 1).toNat 0 != 0) :=
  c2_get_uses_blocks_only.2 scIdx5 1 1 0 (by decide) (by decide) (by decide) (by decide)
    (by decide) (by decide) (by decide)

/-- One successful step of the entity-list loop: a non-End kind byte
followed by a clean entity payload conses that entity onto the rest of the
loop. -/
theorem ReadEntitiesF_cons_ok (fuel : Nat) (b : Nat) (rest : List Nat) (hb : b ≠ TAG_END)
    (ent : Entity) (r2 : List Nat) (hE : ReadEntity rest = ⟨ent, r2, none⟩) :
    ReadEntitiesF (fuel + 1) (b :: rest) =
      ⟨ent :: (ReadEntitiesF fuel r2).val, (ReadEntitiesF fuel r2).rest,
        (ReadEntitiesF fuel r2).err⟩ := by
  rcases hF : ReadEntitiesF fuel r2 with ⟨ents, r3, e3⟩
  simp [ReadEntitiesF, ReadTagTyp, hb, hE, hF]

/-- Claim C10: the entity-list reader checks the element kind byte only
against the End sentinel: End terminates the list, every non-End kind
(compound or not) behaves identically and proceeds into the compound
entity payload, appending the decoded entity record. -/
theorem c10_entities_kind_unchecked :
    (∀ rest : List Nat, ReadEntities (TAG_END :: rest) = ⟨[], rest, none⟩) ∧
    (∀ (b b' : Nat) (rest : List Nat), b ≠ TAG_END → b' ≠ TAG_END →
      ReadEntities (b :: rest) = ReadEntities (b' :: rest)) ∧
    (∀ (b : Nat) (rest : List Nat), b ≠ TAG_END → (ReadEntity rest).err = none →
      ReadEntities (b :: rest) =
        ⟨(ReadEntity rest).val :: (ReadEntities (ReadEntity rest).rest).val,
          (ReadEntities (ReadEntity rest).rest).rest,
          (ReadEntities (ReadEntity rest).rest).err⟩) := by
  refine ⟨?_, ?_, ?_⟩
  · intro rest
    simp [ReadEntities, ReadEntitiesF, ReadTagTyp, TAG_END]
  · intro b b' rest hb hb'
    simp [ReadEntities, ReadEntitiesF, ReadTagTyp, hb, hb']
  · intro b rest hb he
    rcases hE : ReadEntity rest with ⟨ent, r2, e2⟩
    rw [hE] at he
    simp only at he
    subst he
    have hle : r2.length ≤ rest.length := by
      have h1 := ReadEntity_rest_le rest
      rw [hE] at h1
      simpa using h1
    have hcongr : ReadEntitiesF (rest.length + 1) r2 = ReadEntitiesF (r2.length + 1) r2 :=
      ReadEntitiesF_congr _ _ _ (by omega) (by omega)
    have h1 : ReadEntities (b :: rest) =
        ⟨ent :: (ReadEntitiesF (rest.length + 1) r2).val,
          (ReadEntitiesF (rest.length + 1) r2).rest,
          (ReadEntitiesF (rest.length + 1) r2).err⟩ := by
      show ReadEntitiesF ((b :: rest).length + 1) (b :: rest) = _
      simp only [List.length_cons]
      exact ReadEntitiesF_cons_ok (rest.length + 1) b rest hb ent r2 hE
    rw [h1, hcongr]
    rfl

/-- Witness for claim C10: a list whose single element carries the
non-compound kind byte 5 still decodes one entity. -/
theorem c10_entities_kind_unchecked_witness :
    ReadEntities [5, 0, 0] =
      ⟨(ReadEntity [0, 0]).val :: (ReadEntities (ReadEntity [0, 0]).rest).val,
        (ReadEntities (ReadEntity [0, 0]).rest).rest,
        (ReadEntities (ReadEntity [0, 0]).rest).err⟩ :=
  c10_entities_kind_unchecked.2.2 5 [0, 0] (by decide) (by decide)

/-- Claim C6: when the first tag header of the stream decodes but its kind
is not Compound or its name is not "Schematic", Parse returns no map and
an error. -/
theorem c6_root_header_strict (s : List Nat) (typ : Nat) (name rest : List Nat)
    (h : ReadTagName s = ⟨(typ, name), rest, none⟩)
    (hbad : typ ≠ TAG_COMPOUND ∨ name ≠ strSchematic) :
    (Parse s).vol = none ∧ ((Parse s).errOut).isSome = true := by
  unfold Parse
  rw [h]
  by_cases ht : typ = TAG_COMPOUND
  · rcases hbad with hb | hb
    · exact absurd ht hb
    · simp [ht, hb, ParseOut.vol, ParseOut.errOut]
  · simp [ht, ParseOut.vol, ParseOut.errOut]

/-- Witness for claim C6: a stream opening with a Byte tag header. -/
theorem c6_root_header_strict_witness :
    (Parse [1, 0, 0]).vol = none ∧ ((Parse [1, 0, 0]).errOut).isSome = true :=
  c6_root_header_strict [1, 0, 0] 1 [] [] (by decide) (Or.inl (by decide))

/-- Claim C7: when the member loop runs to its End sentinel and the
assembled Materials field differs from "Alpha", Parse fails with the
Materials error; the comparison happens only after the loop. -/
theorem c7_materials_checked_last (s : List Nat) (rest : List Nat) (sc : Schematic)
    (hroot : ReadTagName s = ⟨(TAG_COMPOUND, strSchematic), rest, none⟩)
    (hfields : parseFields Schematic.new rest = FieldsOut.done sc)
    (hmat : sc.Materials ≠ strAlpha) :
    Parse s = ParseOut.ret none (some (DecodeError.badMaterials sc.Materials)) := by
  unfold Parse
  rw [hroot]
  simp [hfields, hmat]

/-- Witness for claim C7: a document whose sole member sets Materials to
"Beta" and then ends; every member is consumed before the check fires. -/
theorem c7_materials_checked_last_witness :
    Parse bytesBetaDoc = ParseOut.ret none (some (DecodeError.badMaterials scBeta.Materials)) :=
  c7_materials_checked_last bytesBetaDoc restBetaDoc scBeta (by decide) (by decide) (by decide)

/-- Claim C8 counterexample: the switch of Parse recognizes ten member
names, not nine, and the tenth, "Entities", is accepted: a member so named
with an empty list payload completes the loop without any failure. -/
theorem c8_nine_names_false :
    rootFieldNames.length = 10 ∧ ¬ rootFieldNames.length = 9 ∧
    nEntities ∈ rootFieldNames ∧
    parseFields Schematic.new bytesEntitiesMember = FieldsOut.done Schematic.new := by decide

/-- Claim C8 (amended): the decoder is strict about field names: a member
header whose name is outside the ten recognized names makes the member
loop fail at once with the unknown-field error, and inside an entity every
member tag (no entity names are recognized) fails the entity reader with
the unknown-entity-field error. -/
theorem c8_unknown_names_fail :
    (∀ (cur : Schematic) (s : List Nat) (typ : Nat) (name rest : List Nat),
      ReadTagName s = ⟨(typ, name), rest, none⟩ → typ ≠ TAG_END →
      name ∉ rootFieldNames →
      parseFields cur s = FieldsOut.fail none (DecodeError.unknownField typ name)) ∧
    (∀ (s : List Nat) (typ : Nat) (name rest : List Nat),
      ReadTagName s = ⟨(typ, name), rest, none⟩ → typ ≠ TAG_END →
      (ReadEntity s).err = some (DecodeError.unknownEntityField name)) ∧
    rootFieldNames.length = 10 := by
  refine ⟨?_, ?_, by decide⟩
  · intro cur s typ name rest h ht hname
    simp only [rootFieldNames, List.mem_cons, List.not_mem_nil, or_false, not_or] at hname
    obtain ⟨h1, h2, h3, h4, h5, h6, h7, h8, h9, h10⟩ := hname
    unfold parseFields
    unfold parseFieldsF
    rw [h]
    simp [ht, h1, h2, h3, h4, h5, h6, h7, h8, h9, h10]
  · intro s typ name rest h ht
    unfold ReadEntity
    rw [h]
    simp [ht]

/-- Witness for the amended claim C8: a root member named "Foo" and an
entity member named "Foo" both fail. -/
theorem c8_unknown_names_fail_witness :
    parseFields Schematic.new [1, 0, 3, 70, 111, 111] =
      FieldsOut.fail none (DecodeError.unknownField 1 [70, 111, 111]) ∧
    (ReadEntity [1, 0, 3, 70, 111, 111]).err =
      some (DecodeError.unknownEntityField [70, 111, 111]) :=
  ⟨c8_unknown_names_fail.1 Schematic.new [1, 0, 3, 70, 111, 111] 1 [70, 111, 111] []
      (by decide) (by decide) (by decide),
   c8_unknown_names_fail.2.1 [1, 0, 3, 70, 111, 111] 1 [70, 111, 111] []
      (by decide) (by decide)⟩

/-- Claim C1 counterexample: a stream holding only the root header is
truncated before any member; Parse reports the truncation error but also
hands back the freshly allocated, partially populated struct, so the
caller receives a partial map together with the error. -/
theorem c1_partial_with_error :
    Parse bytesRootOnly = ParseOut.ret (some Schematic.new) (some DecodeError.truncated) ∧
    ((Parse bytesRootOnly).vol).isSome = true ∧
    ((Parse bytesRootOnly).errOut).isSome = true := by decide

/-- The runtime panic is reachable: a Blocks length prefix FF FF FF FF is
read as -1 and make aborts the decode without returning. -/
theorem Parse_panics_on_negative_length : Parse bytesNegLen = ParseOut.panicked := by decide

/-- Claim C1 (amended): decode never turns a failure into a silent
success: every input either has its error slot set (mid-parse read
failures additionally carry a partial struct the caller must discard,
while the root-header checks, the unknown-field arm and the Materials
check return no struct), or returns a fully parsed map with Materials
"Alpha" and an empty error slot, or panics at the runtime array
allocation of a negative Blocks/Data length prefix. -/
theorem c1_error_always_reported (s : List Nat) :
    ((Parse s).errOut).isSome = true ∨
    (∃ sc, Parse s = ParseOut.ret (some sc) none ∧ sc.Materials = strAlpha) ∨
    Parse s = ParseOut.panicked := by
  unfold Parse
  rcases hT : ReadTagName s with ⟨⟨typ, name⟩, rest, err⟩
  cases err with
  | some e => exact Or.inl (by simp [ParseOut.errOut])
  | none =>
    by_cases ht : typ = TAG_COMPOUND
    · subst ht
      by_cases hn : name = strSchematic
      · subst hn
        rcases hf : parseFields Schematic.new rest with sc | ⟨os, e⟩ | _
        · by_cases hm : sc.Materials = strAlpha
          · exact Or.inr (Or.inl ⟨sc, by simp [hf, hm], hm⟩)
          · exact Or.inl (by simp [hf, hm, ParseOut.errOut])
        · exact Or.inl (by simp [hf, ParseOut.errOut])
        · exact Or.inr (Or.inr (by simp [hf]))
      · exact Or.inl (by simp [hn, ParseOut.errOut])
    · exact Or.inl (by simp [ht, ParseOut.errOut])
